import Mathlib

/-!
Verification of the PlanItOut task-planning logic.

Shallow embedding of the task store and scheduling heuristic found in
`src/components/task-calendar.tsx` (the `Task` record, `addTask`,
`updateTask`, `deleteTask`, `sortTasksByAI`) and of the drag-and-drop
handler `handleDrop` from `src/components/calendar-view.tsx`.

JavaScript `Date` values are modelled by an absolute calendar-day count
plus a time of day; `setDate(getDate() ± n)` becomes a shift of the day
count by `n`, and `setHours(h, 0, 0, 0)` sets the hour and zeroes the
sub-hour fields.  `Array.prototype.sort` is stable (ECMAScript 2019), so
the sort is modelled by a stable insertion sort over the source's
comparator.
-/

namespace PlanItOut

/-- Model of a JavaScript `Date`: an absolute calendar-day count plus the
time of day.  `day` counts calendar days from an arbitrary epoch, so
`setDate(getDate() + n)` is `day := day + n`. -/
structure DateT where
  day : Int
  hour : Int
  minute : Int
  second : Int
  ms : Int
deriving Repr, DecidableEq

/-- `Date.prototype.getTime`: milliseconds represented by the date.  Only
differences of `getTime` values are ever used (in the sort comparator). -/
def DateT.getTime (d : DateT) : Int :=
  (((d.day * 24 + d.hour) * 60 + d.minute) * 60 + d.second) * 1000 + d.ms

/-- `d.setHours(h, 0, 0, 0)`: set the hour, zero minutes, seconds and
milliseconds. -/
def DateT.setHours (d : DateT) (h : Int) : DateT :=
  { d with hour := h, minute := 0, second := 0, ms := 0 }

/-- `d.setDate(d.getDate() + n)`: shift the calendar day by `n`. -/
def DateT.addDays (d : DateT) (n : Int) : DateT :=
  { d with day := d.day + n }

/-- The `Task` record of `task-calendar.tsx`.  Optional TypeScript fields
(`dueDate?`, `category?`, `aiSuggested?`, `scheduledTime?`) become
`Option`s. -/
structure Task where
  id : String
  title : String
  description : String
  importance : Int
  estimatedTime : Int
  dueDate : Option DateT
  completed : Bool
  category : Option String
  aiSuggested : Option Bool
  scheduledTime : Option DateT
deriving Repr, DecidableEq

/-- The comparator passed to `sort` inside `sortTasksByAI`:
importance descending; ties with both due dates present broken by
earlier due date; otherwise `0` (keep relative order). -/
def taskCmp (a b : Task) : Int :=
  if b.importance ≠ a.importance then b.importance - a.importance
  else
    match a.dueDate, b.dueDate with
    | some da, some db => da.getTime - db.getTime
    | _, _ => 0

/-- Stable insertion of `x` into a sorted list: `x` goes before the first
element `y` with `taskCmp x y ≤ 0`, so earlier elements precede elements
that compare equal. -/
def orderedInsertTask (x : Task) : List Task → List Task
  | [] => [x]
  | y :: l => if taskCmp x y ≤ 0 then x :: y :: l else y :: orderedInsertTask x l

/-- `[...tasks].sort(comparator)` modelled as a stable insertion sort
(`Array.prototype.sort` is stable per ECMAScript 2019). -/
def sortByImportance : List Task → List Task
  | [] => []
  | x :: l => orderedInsertTask x (sortByImportance l)

/-- `Math.ceil(x / 2)` for an integer `x`. -/
def ceilHalf (x : Int) : Int := Int.fdiv (x + 1) 2

/-- `Math.max(1, Math.ceil((10 - importance) / 2))`: how many days before
the due date a task is scheduled. -/
def daysBeforeDue (importance : Int) : Int := max 1 (ceilHalf (10 - importance))

/-- `task.importance >= 8 ? 9 : task.importance >= 6 ? 13 : 15`: the hour
assigned by priority tier. -/
def hourFor (importance : Int) : Int :=
  if 8 ≤ importance then 9 else if 6 ≤ importance then 13 else 15

/-- The body of the `map` inside `sortTasksByAI`: completed or already
scheduled tasks are returned unchanged; otherwise a `scheduledTime` is
derived from the due date (or from the index when there is none) and the
priority-tier hour. -/
def schedStep (today : DateT) (index : Nat) (task : Task) : Task :=
  if task.completed || task.scheduledTime.isSome then task
  else
    let targetDate : DateT :=
      match task.dueDate with
      | some dd => dd.addDays (-(daysBeforeDue task.importance))
      | none => today.addDays (index / 3 : Nat)
    { task with scheduledTime := some (targetDate.setHours (hourFor task.importance)) }

/-- `sorted.map((task, index) => ...)`: apply `schedStep` with the running
index. -/
def scheduleAll (today : DateT) : Nat → List Task → List Task
  | _, [] => []
  | i, t :: ts => schedStep today i t :: scheduleAll today (i + 1) ts

/-- `sortTasksByAI` from `task-calendar.tsx`: sort by the comparator, then
assign scheduled times.  `today` stands for `new Date()`. -/
def sortTasksByAI (today : DateT) (tasks : List Task) : List Task :=
  scheduleAll today 0 (sortByImportance tasks)

/-- `Omit<Task, "id" | "completed">`: the argument of `addTask`. -/
structure NewTask where
  title : String
  description : String
  importance : Int
  estimatedTime : Int
  dueDate : Option DateT
  category : Option String
  aiSuggested : Option Bool
  scheduledTime : Option DateT
deriving Repr, DecidableEq

/-- `addTask` from `task-calendar.tsx`: build a task from the input with
`id := Date.now().toString()` and `completed := false`, and append it.
`now` stands for `Date.now()`. -/
def addTask (now : Nat) (newTask : NewTask) (tasks : List Task) : List Task :=
  tasks ++ [{ id := toString now
              title := newTask.title
              description := newTask.description
              importance := newTask.importance
              estimatedTime := newTask.estimatedTime
              dueDate := newTask.dueDate
              completed := false
              category := newTask.category
              aiSuggested := newTask.aiSuggested
              scheduledTime := newTask.scheduledTime }]

/-- `Partial<Task>`: every field optional.  For fields that are already
optional on `Task`, the outer `Option` records whether the field is
present in the update at all. -/
structure TaskUpdate where
  id : Option String
  title : Option String
  description : Option String
  importance : Option Int
  estimatedTime : Option Int
  dueDate : Option (Option DateT)
  completed : Option Bool
  category : Option (Option String)
  aiSuggested : Option (Option Bool)
  scheduledTime : Option (Option DateT)
deriving Repr, DecidableEq

/-- `{ ...task, ...updates }`: fields present in the update overwrite the
task's fields. -/
def applyUpdate (task : Task) (u : TaskUpdate) : Task :=
  { id := u.id.getD task.id
    title := u.title.getD task.title
    description := u.description.getD task.description
    importance := u.importance.getD task.importance
    estimatedTime := u.estimatedTime.getD task.estimatedTime
    dueDate := u.dueDate.getD task.dueDate
    completed := u.completed.getD task.completed
    category := u.category.getD task.category
    aiSuggested := u.aiSuggested.getD task.aiSuggested
    scheduledTime := u.scheduledTime.getD task.scheduledTime }

/-- `updateTask` from `task-calendar.tsx`. -/
def updateTask (id : String) (updates : TaskUpdate) (tasks : List Task) : List Task :=
  tasks.map fun task => if task.id = id then applyUpdate task updates else task

/-- `deleteTask` from `task-calendar.tsx`. -/
def deleteTask (id : String) (tasks : List Task) : List Task :=
  tasks.filter fun task => task.id ≠ id

/-- The update with no fields present. -/
def emptyUpdate : TaskUpdate :=
  ⟨none, none, none, none, none, none, none, none, none, none⟩

/-- The `scheduledTime` computed by `handleDrop` in `calendar-view.tsx`:
the slot's date, with `setHours(hour, 0, 0, 0)` applied when an hour is
given. -/
def droppedTime (date : DateT) (hour : Option Int) : DateT :=
  match hour with
  | some h => date.setHours h
  | none => date

/-- `handleDrop` from `calendar-view.tsx`.  `parsed` is the result of
`JSON.parse` on the drag payload: `none` when parsing throws (the error
is caught and nothing happens), `some taskData` otherwise, in which case
`onUpdateTask(taskData.id, { scheduledTime })` runs. -/
def handleDrop (parsed : Option Task) (date : DateT) (hour : Option Int)
    (tasks : List Task) : List Task :=
  match parsed with
  | none => tasks
  | some taskData =>
      updateTask taskData.id
        { emptyUpdate with scheduledTime := some (some (droppedTime date hour)) } tasks

/-! ### Basic lemmas about the sort and the scheduling step -/

theorem orderedInsertTask_perm (x : Task) (l : List Task) :
    List.Perm (orderedInsertTask x l) (x :: l) := by
  induction l with
  | nil => simp [orderedInsertTask]
  | cons y ys ih =>
    by_cases h : taskCmp x y ≤ 0
    · simp [orderedInsertTask, h]
    · simp only [orderedInsertTask, if_neg h]
      exact (ih.cons y).trans (List.Perm.swap x y ys)

theorem sortByImportance_perm (l : List Task) :
    List.Perm (sortByImportance l) l := by
  induction l with
  | nil => simp [sortByImportance]
  | cons x xs ih =>
    exact (orderedInsertTask_perm x (sortByImportance xs)).trans (ih.cons x)

theorem schedStep_id (today : DateT) (i : Nat) (t : Task) :
    (schedStep today i t).id = t.id := by
  unfold schedStep; split <;> rfl

theorem schedStep_title (today : DateT) (i : Nat) (t : Task) :
    (schedStep today i t).title = t.title := by
  unfold schedStep; split <;> rfl

theorem schedStep_description (today : DateT) (i : Nat) (t : Task) :
    (schedStep today i t).description = t.description := by
  unfold schedStep; split <;> rfl

theorem schedStep_importance (today : DateT) (i : Nat) (t : Task) :
    (schedStep today i t).importance = t.importance := by
  unfold schedStep; split <;> rfl

theorem schedStep_estimatedTime (today : DateT) (i : Nat) (t : Task) :
    (schedStep today i t).estimatedTime = t.estimatedTime := by
  unfold schedStep; split <;> rfl

theorem schedStep_dueDate (today : DateT) (i : Nat) (t : Task) :
    (schedStep today i t).dueDate = t.dueDate := by
  unfold schedStep; split <;> rfl

theorem schedStep_completed (today : DateT) (i : Nat) (t : Task) :
    (schedStep today i t).completed = t.completed := by
  unfold schedStep; split <;> rfl

theorem schedStep_category (today : DateT) (i : Nat) (t : Task) :
    (schedStep today i t).category = t.category := by
  unfold schedStep; split <;> rfl

theorem schedStep_aiSuggested (today : DateT) (i : Nat) (t : Task) :
    (schedStep today i t).aiSuggested = t.aiSuggested := by
  unfold schedStep; split <;> rfl

theorem schedStep_of_done (today : DateT) (i : Nat) (t : Task)
    (h : t.completed = true ∨ t.scheduledTime.isSome = true) :
    schedStep today i t = t := by
  unfold schedStep
  have : (t.completed || t.scheduledTime.isSome) = true := by
    rcases h with h | h <;> simp [h]
  simp [this]

theorem schedStep_scheduledTime_of_fresh (today : DateT) (i : Nat) (t : Task)
    (hc : t.completed = false) (hs : t.scheduledTime = none) :
    (schedStep today i t).scheduledTime =
      some ((match t.dueDate with
             | some dd => dd.addDays (-(daysBeforeDue t.importance))
             | none => today.addDays (i / 3 : Nat)).setHours (hourFor t.importance)) := by
  unfold schedStep
  simp [hc, hs]

theorem scheduleAll_mem_of_done (today : DateT) (n : Nat) (l : List Task) (t : Task)
    (ht : t ∈ l) (h : t.completed = true ∨ t.scheduledTime.isSome = true) :
    t ∈ scheduleAll today n l := by
  induction l generalizing n with
  | nil => cases ht
  | cons x xs ih =>
    rcases List.mem_cons.mp ht with rfl | hmem
    · exact List.mem_cons.mpr (Or.inl (schedStep_of_done today n t h).symm)
    · exact List.mem_cons.mpr (Or.inr (ih (n + 1) hmem))

theorem scheduleAll_mem_image (today : DateT) (n : Nat) (l : List Task) (t : Task)
    (ht : t ∈ l) : ∃ i, schedStep today i t ∈ scheduleAll today n l := by
  induction l generalizing n with
  | nil => cases ht
  | cons x xs ih =>
    rcases List.mem_cons.mp ht with rfl | hmem
    · exact ⟨n, List.mem_cons.mpr (Or.inl rfl)⟩
    · obtain ⟨i, hi⟩ := ih (n + 1) hmem
      exact ⟨i, List.mem_cons.mpr (Or.inr hi)⟩

/-- The non-strict order induced by the comparator. -/
def taskLe (a b : Task) : Prop := taskCmp a b ≤ 0

instance (a b : Task) : Decidable (taskLe a b) := by
  unfold taskLe; infer_instance

theorem taskCmp_neg (a b : Task) : taskCmp a b = -taskCmp b a := by
  unfold taskCmp
  rcases eq_or_ne a.importance b.importance with h | h
  · simp only [h, ne_eq, not_true_eq_false, if_false, ite_false]
    cases a.dueDate <;> cases b.dueDate <;> simp
  · rw [if_pos (by omega), if_pos (by omega)]
    ring

theorem taskLe_of_not_le (x y : Task) (h : ¬ taskLe x y) : taskLe y x := by
  unfold taskLe at h ⊢
  rw [taskCmp_neg]
  omega

theorem orderedInsertTask_chain (x : Task) (l : List Task)
    (h : List.Chain' taskLe l) : List.Chain' taskLe (orderedInsertTask x l) := by
  induction l with
  | nil => simp [orderedInsertTask]
  | cons y ys ih =>
    rw [orderedInsertTask]
    by_cases hxy : taskCmp x y ≤ 0
    · rw [if_pos hxy]
      exact List.chain'_cons.mpr ⟨hxy, h⟩
    · rw [if_neg hxy]
      have hyx : taskLe y x := taskLe_of_not_le x y hxy
      have ih2 := ih h.tail
      cases ys with
      | nil => exact List.chain'_cons.mpr ⟨hyx, List.chain'_singleton x⟩
      | cons z zs =>
        rw [orderedInsertTask] at ih2 ⊢
        by_cases hxz : taskCmp x z ≤ 0
        · rw [if_pos hxz] at ih2 ⊢
          exact List.chain'_cons.mpr ⟨hyx, ih2⟩
        · rw [if_neg hxz] at ih2 ⊢
          exact List.chain'_cons.mpr ⟨(List.chain'_cons.mp h).1, ih2⟩

theorem sortByImportance_chain (l : List Task) :
    List.Chain' taskLe (sortByImportance l) := by
  induction l with
  | nil => simp [sortByImportance]
  | cons x xs ih => exact orderedInsertTask_chain x _ ih

theorem sortByImportance_of_chain (l : List Task) (h : List.Chain' taskLe l) :
    sortByImportance l = l := by
  induction l with
  | nil => rfl
  | cons x xs ih =>
    rw [sortByImportance, ih h.tail]
    cases xs with
    | nil => rfl
    | cons y ys =>
      rw [orderedInsertTask,
        if_pos (show taskCmp x y ≤ 0 from (List.chain'_cons.mp h).1)]

theorem taskCmp_schedStep (today : DateT) (i j : Nat) (a b : Task) :
    taskCmp (schedStep today i a) (schedStep today j b) = taskCmp a b := by
  unfold taskCmp
  rw [schedStep_importance, schedStep_importance, schedStep_dueDate, schedStep_dueDate]

theorem scheduleAll_chain (today : DateT) (n : Nat) (l : List Task)
    (h : List.Chain' taskLe l) : List.Chain' taskLe (scheduleAll today n l) := by
  induction l generalizing n with
  | nil => simp [scheduleAll]
  | cons x xs ih =>
    cases xs with
    | nil => simp [scheduleAll]
    | cons y ys =>
      rw [scheduleAll, scheduleAll]
      refine List.chain'_cons.mpr ⟨?_, ?_⟩
      · unfold taskLe
        rw [taskCmp_schedStep]
        exact (List.chain'_cons.mp h).1
      · rw [← scheduleAll]
        exact ih (n + 1) h.tail

theorem schedStep_done (today : DateT) (i : Nat) (x : Task) :
    (schedStep today i x).completed = true ∨
      (schedStep today i x).scheduledTime.isSome = true := by
  by_cases h : (x.completed || x.scheduledTime.isSome) = true
  · rw [schedStep, if_pos h]
    rcases Bool.or_eq_true_iff.mp h with h1 | h1
    · exact Or.inl h1
    · exact Or.inr h1
  · rw [schedStep, if_neg h]
    right
    rfl

theorem scheduleAll_done (today : DateT) (n : Nat) (l : List Task) :
    ∀ t ∈ scheduleAll today n l,
      t.completed = true ∨ t.scheduledTime.isSome = true := by
  induction l generalizing n with
  | nil => intro t ht; cases ht
  | cons x xs ih =>
    intro t ht
    rcases List.mem_cons.mp ht with rfl | hmem
    · exact schedStep_done today n x
    · exact ih (n + 1) t hmem

theorem scheduleAll_id (today : DateT) (n : Nat) (l : List Task)
    (h : ∀ t ∈ l, t.completed = true ∨ t.scheduledTime.isSome = true) :
    scheduleAll today n l = l := by
  induction l generalizing n with
  | nil => rfl
  | cons x xs ih =>
    rw [scheduleAll, schedStep_of_done today n x (h x (List.mem_cons_self x xs)),
      ih (n + 1) (fun t ht => h t (List.mem_cons_of_mem x ht))]

theorem scheduleAll_getElem (today : DateT) (n : Nat) (l : List Task) (i : Nat) :
    (scheduleAll today n l)[i]? = (l[i]?).map (schedStep today (n + i)) := by
  induction l generalizing n i with
  | nil => simp [scheduleAll]
  | cons x xs ih =>
    cases i with
    | zero => simp [scheduleAll]
    | succ j =>
      rw [scheduleAll]
      simp only [List.getElem?_cons_succ]
      rw [ih (n + 1) j]
      have hn : n + 1 + j = n + (j + 1) := by omega
      rw [hn]

theorem scheduleAll_length (today : DateT) (n : Nat) (l : List Task) :
    (scheduleAll today n l).length = l.length := by
  induction l generalizing n with
  | nil => rfl
  | cons x xs ih => rw [scheduleAll, List.length_cons, List.length_cons, ih (n + 1)]

theorem sortByImportance_length (l : List Task) :
    (sortByImportance l).length = l.length :=
  (sortByImportance_perm l).length_eq

/-! ### Sample data used by the witnesses -/

/-- A concrete current date for witnesses. -/
def sampleToday : DateT := ⟨20000, 8, 30, 0, 0⟩

/-- A concrete incomplete, unscheduled task without a due date. -/
def sampleFresh : Task :=
  ⟨"w1", "write report", "draft the weekly report", 5, 30, none, false, none, none, none⟩

/-- A concrete already-scheduled task (mirrors the first seeded task of
`task-calendar.tsx`). -/
def sampleScheduled : Task :=
  ⟨"1", "Complete project proposal", "Finish the Q1 project proposal", 9, 120,
    some ⟨20098, 0, 0, 0, 0⟩, false, some "Work", none, some ⟨20096, 9, 0, 0, 0⟩⟩

/-- A concrete partial update touching only the title. -/
def sampleUpdate : TaskUpdate := { emptyUpdate with title := some "Revised title" }

/-! ### Claim theorems -/

/-- C1: `sortTasksByAI` assigns a new `scheduledTime` only to tasks that
are neither completed nor already scheduled.  Every task that is completed
or already has a `scheduledTime` appears in the output with all of its
fields unchanged, and every incomplete task without a `scheduledTime`
comes out with a `scheduledTime` set and every other field unchanged. -/
theorem claim1_sortTasksByAI_frame (today : DateT) (tasks : List Task) :
    (∀ t ∈ tasks, (t.completed = true ∨ t.scheduledTime.isSome = true) →
        t ∈ sortTasksByAI today tasks) ∧
    (∀ t ∈ tasks, t.completed = false → t.scheduledTime = none →
        ∃ s ∈ sortTasksByAI today tasks, s.scheduledTime.isSome = true ∧
          s.id = t.id ∧ s.title = t.title ∧ s.description = t.description ∧
          s.importance = t.importance ∧ s.estimatedTime = t.estimatedTime ∧
          s.dueDate = t.dueDate ∧ s.completed = t.completed ∧
          s.category = t.category ∧ s.aiSuggested = t.aiSuggested) := by
  constructor
  · intro t ht h
    exact scheduleAll_mem_of_done today 0 _ t
      ((sortByImportance_perm tasks).mem_iff.mpr ht) h
  · intro t ht hc hs
    obtain ⟨i, hi⟩ := scheduleAll_mem_image today 0 _ t
      ((sortByImportance_perm tasks).mem_iff.mpr ht)
    refine ⟨schedStep today i t, hi, ?_, schedStep_id today i t,
      schedStep_title today i t, schedStep_description today i t,
      schedStep_importance today i t, schedStep_estimatedTime today i t,
      schedStep_dueDate today i t, schedStep_completed today i t,
      schedStep_category today i t, schedStep_aiSuggested today i t⟩
    rw [schedStep_scheduledTime_of_fresh today i t hc hs]
    rfl

/-- Witness for C1 at a concrete incomplete, unscheduled task. -/
theorem claim1_witness :
    ∃ s ∈ sortTasksByAI sampleToday [sampleFresh], s.scheduledTime.isSome = true ∧
      s.id = sampleFresh.id ∧ s.title = sampleFresh.title ∧
      s.description = sampleFresh.description ∧
      s.importance = sampleFresh.importance ∧
      s.estimatedTime = sampleFresh.estimatedTime ∧
      s.dueDate = sampleFresh.dueDate ∧ s.completed = sampleFresh.completed ∧
      s.category = sampleFresh.category ∧ s.aiSuggested = sampleFresh.aiSuggested :=
  (claim1_sortTasksByAI_frame sampleToday [sampleFresh]).2 sampleFresh
    (List.mem_singleton.mpr rfl) rfl rfl

/-- C7: `sortTasksByAI` is deterministic: two runs on the same current
date and the same task list produce identical output lists. -/
theorem claim7_deterministic (d₁ d₂ : DateT) (l₁ l₂ : List Task)
    (hd : d₁ = d₂) (hl : l₁ = l₂) :
    sortTasksByAI d₁ l₁ = sortTasksByAI d₂ l₂ := by
  rw [hd, hl]

/-- Witness for C7 at concrete inputs. -/
theorem claim7_witness :
    sortTasksByAI sampleToday [sampleFresh, sampleScheduled] =
      sortTasksByAI sampleToday [sampleFresh, sampleScheduled] :=
  claim7_deterministic sampleToday sampleToday [sampleFresh, sampleScheduled]
    [sampleFresh, sampleScheduled] rfl rfl

/-- C8: `addTask` appends exactly one task at the end, with
`completed := false` and the freshly derived id `Date.now().toString()`,
copying every other field from the input and leaving every existing task
and their relative order unchanged. -/
theorem claim8_addTask (now : Nat) (nt : NewTask) (tasks : List Task) :
    ∃ t : Task, addTask now nt tasks = tasks ++ [t] ∧
      (addTask now nt tasks).length = tasks.length + 1 ∧
      (addTask now nt tasks).take tasks.length = tasks ∧
      t.completed = false ∧ t.id = toString now ∧
      t.title = nt.title ∧ t.description = nt.description ∧
      t.importance = nt.importance ∧ t.estimatedTime = nt.estimatedTime ∧
      t.dueDate = nt.dueDate ∧ t.category = nt.category ∧
      t.aiSuggested = nt.aiSuggested ∧ t.scheduledTime = nt.scheduledTime := by
  refine ⟨_, rfl, by simp [addTask], by simp [addTask], rfl, rfl, rfl, rfl,
    rfl, rfl, rfl, rfl, rfl, rfl⟩

/-- C9: `updateTask` preserves the length and relative order of the task
list, leaves every task with a different id entirely unchanged, and
overwrites exactly the update's fields on tasks with the given id. -/
theorem claim9_updateTask_frame (id : String) (u : TaskUpdate) (tasks : List Task) :
    (updateTask id u tasks).length = tasks.length ∧
    (∀ (i : Nat) (t : Task), tasks[i]? = some t → t.id ≠ id →
        (updateTask id u tasks)[i]? = some t) ∧
    (∀ (i : Nat) (t : Task), tasks[i]? = some t → t.id = id →
        (updateTask id u tasks)[i]? = some (applyUpdate t u)) := by
  refine ⟨by simp [updateTask], ?_, ?_⟩
  · intro i t hget hne
    simp [updateTask, List.getElem?_map, hget, hne]
  · intro i t hget heq
    simp [updateTask, List.getElem?_map, hget, heq]

/-- Witness for C9 at a concrete matching task. -/
theorem claim9_witness :
    (updateTask "1" sampleUpdate [sampleScheduled])[0]? =
      some (applyUpdate sampleScheduled sampleUpdate) :=
  (claim9_updateTask_frame "1" sampleUpdate [sampleScheduled]).2.2 0
    sampleScheduled rfl rfl

/-- C10: `sortTasksByAI` is idempotent: a second run re-sorts an
already-sorted list and reschedules nothing. -/
theorem claim10_idempotent (today : DateT) (tasks : List Task) :
    sortTasksByAI today (sortTasksByAI today tasks) = sortTasksByAI today tasks := by
  unfold sortTasksByAI
  rw [sortByImportance_of_chain _
      (scheduleAll_chain today 0 _ (sortByImportance_chain tasks)),
    scheduleAll_id today 0 _ (scheduleAll_done today 0 _)]

/-- A concrete incomplete, unscheduled task with a due date. -/
def sampleDue : Task :=
  ⟨"w2", "prepare slides", "deck for review", 7, 60,
    some ⟨20010, 12, 30, 0, 0⟩, false, none, none, none⟩

/-- C3: for every incomplete, unscheduled task the time of day of the
assigned `scheduledTime` is determined solely by the priority tier:
hour 9 when importance ≥ 8, hour 13 when 6 ≤ importance < 8, hour 15
otherwise, with minutes, seconds and milliseconds zero. -/
theorem claim3_hour_by_tier (today : DateT) (tasks : List Task) (t : Task)
    (ht : t ∈ tasks) (hc : t.completed = false) (hs : t.scheduledTime = none) :
    ∃ s ∈ sortTasksByAI today tasks, s.id = t.id ∧ s.importance = t.importance ∧
      ∃ d : DateT, s.scheduledTime = some d ∧
        d.hour = (if 8 ≤ t.importance then 9
                  else if 6 ≤ t.importance then 13 else 15) ∧
        d.minute = 0 ∧ d.second = 0 ∧ d.ms = 0 := by
  obtain ⟨i, hi⟩ := scheduleAll_mem_image today 0 _ t
    ((sortByImportance_perm tasks).mem_iff.mpr ht)
  refine ⟨schedStep today i t, hi, schedStep_id today i t,
    schedStep_importance today i t,
    _, schedStep_scheduledTime_of_fresh today i t hc hs, rfl, rfl, rfl, rfl⟩

/-- Witness for C3 at a concrete task of the middle tier. -/
theorem claim3_witness :
    ∃ s ∈ sortTasksByAI sampleToday [sampleDue], s.id = sampleDue.id ∧
      s.importance = sampleDue.importance ∧
      ∃ d : DateT, s.scheduledTime = some d ∧
        d.hour = (if 8 ≤ sampleDue.importance then 9
                  else if 6 ≤ sampleDue.importance then 13 else 15) ∧
        d.minute = 0 ∧ d.second = 0 ∧ d.ms = 0 :=
  claim3_hour_by_tier sampleToday [sampleDue] sampleDue
    (List.mem_singleton.mpr rfl) rfl rfl

/-- C4: an incomplete, unscheduled task with a due date is scheduled
exactly `max 1 (Math.ceil((10 - importance) / 2))` days before the due
date's calendar day; the gap is at least one day, and it is
non-increasing as importance increases. -/
theorem claim4_due_date_gap (today : DateT) (tasks : List Task) (t : Task)
    (dd : DateT) (ht : t ∈ tasks) (hc : t.completed = false)
    (hs : t.scheduledTime = none) (hd : t.dueDate = some dd) :
    (∃ s ∈ sortTasksByAI today tasks, s.id = t.id ∧ s.dueDate = some dd ∧
        ∃ d : DateT, s.scheduledTime = some d ∧
          d.day = dd.day - max 1 (ceilHalf (10 - t.importance)) ∧
          d.day ≤ dd.day - 1) ∧
    (∀ i j : Int, i ≤ j → daysBeforeDue j ≤ daysBeforeDue i) := by
  constructor
  · obtain ⟨i, hi⟩ := scheduleAll_mem_image today 0 _ t
      ((sortByImportance_perm tasks).mem_iff.mpr ht)
    have hsched := schedStep_scheduledTime_of_fresh today i t hc hs
    rw [hd] at hsched
    refine ⟨schedStep today i t, hi, schedStep_id today i t,
      (schedStep_dueDate today i t).trans hd, _, hsched, ?_, ?_⟩
    · show (dd.addDays (-(daysBeforeDue t.importance))).day = _
      simp only [DateT.addDays]
      unfold daysBeforeDue
      ring
    · have hk : (1 : Int) ≤ daysBeforeDue t.importance := le_max_left _ _
      show (dd.addDays (-(daysBeforeDue t.importance))).day ≤ dd.day - 1
      simp only [DateT.addDays]
      omega
  · intro i j hij
    unfold daysBeforeDue ceilHalf
    rw [Int.fdiv_eq_ediv _ (by norm_num), Int.fdiv_eq_ediv _ (by norm_num)]
    omega

/-- Witness for C4 at a concrete task with a due date. -/
theorem claim4_witness :
    (∃ s ∈ sortTasksByAI sampleToday [sampleDue], s.id = sampleDue.id ∧
        s.dueDate = some ⟨20010, 12, 30, 0, 0⟩ ∧
        ∃ d : DateT, s.scheduledTime = some d ∧
          d.day = (20010 : Int) - max 1 (ceilHalf (10 - sampleDue.importance)) ∧
          d.day ≤ (20010 : Int) - 1) ∧
    (∀ i j : Int, i ≤ j → daysBeforeDue j ≤ daysBeforeDue i) :=
  claim4_due_date_gap sampleToday [sampleDue] sampleDue ⟨20010, 12, 30, 0, 0⟩
    (List.mem_singleton.mpr rfl) rfl rfl rfl

/-- C5: an incomplete, unscheduled task without a due date sitting at
position `i` of the sorted list is scheduled `i / 3` days after the
current day; the sorted list is a permutation of the input whose
consecutive elements are ordered by the comparator (importance
descending, ties with both due dates broken by earlier due date,
comparator-equal tasks keeping their relative order). -/
theorem claim5_no_due_date (today : DateT) (tasks : List Task) (i : Nat)
    (t : Task) (hget : (sortByImportance tasks)[i]? = some t)
    (hc : t.completed = false) (hs : t.scheduledTime = none)
    (hd : t.dueDate = none) :
    List.Perm (sortByImportance tasks) tasks ∧
    List.Chain' taskLe (sortByImportance tasks) ∧
    (sortTasksByAI today tasks)[i]? =
      some { t with scheduledTime := some (DateT.mk (today.day + (i / 3 : Nat))
        (hourFor t.importance) 0 0 0) } := by
  refine ⟨sortByImportance_perm tasks, sortByImportance_chain tasks, ?_⟩
  unfold sortTasksByAI
  rw [scheduleAll_getElem today 0 _ i, hget]
  simp [schedStep, hc, hs, hd, DateT.addDays, DateT.setHours]

/-- Witness for C5 at a concrete singleton list. -/
theorem claim5_witness :
    List.Perm (sortByImportance [sampleFresh]) [sampleFresh] ∧
    List.Chain' taskLe (sortByImportance [sampleFresh]) ∧
    (sortTasksByAI sampleToday [sampleFresh])[0]? =
      some
        { sampleFresh with
          scheduledTime := some (DateT.mk
            (sampleToday.day + (((0 : Nat) / 3 : Nat) : Int))
            (hourFor sampleFresh.importance) 0 0 0) } :=
  claim5_no_due_date sampleToday [sampleFresh] 0 sampleFresh rfl rfl rfl rfl

/-- C6: a drop whose payload fails to parse leaves the task list
unchanged; a parsed payload updates only the `scheduledTime` of tasks
with the payload's id, to the slot's date with the slot hour and zero
minutes, seconds and milliseconds when an hour is given. -/
theorem claim6_handleDrop (date : DateT) (hour : Option Int) (tasks : List Task) :
    handleDrop none date hour tasks = tasks ∧
    ∀ td : Task,
      (handleDrop (some td) date hour tasks).length = tasks.length ∧
      (∀ (i : Nat) (t : Task), tasks[i]? = some t → t.id ≠ td.id →
          (handleDrop (some td) date hour tasks)[i]? = some t) ∧
      (∀ (i : Nat) (t : Task), tasks[i]? = some t → t.id = td.id →
          (handleDrop (some td) date hour tasks)[i]? =
            some { t with scheduledTime := some (droppedTime date hour) }) ∧
      (∀ h : Int, hour = some h → droppedTime date hour = ⟨date.day, h, 0, 0, 0⟩) := by
  refine ⟨rfl, fun td => ⟨?_, ?_, ?_, ?_⟩⟩
  · simp [handleDrop, updateTask]
  · intro i t hget hne
    simp [handleDrop, updateTask, List.getElem?_map, hget, hne]
  · intro i t hget heq
    simp [handleDrop, updateTask, List.getElem?_map, hget, heq,
      applyUpdate, emptyUpdate]
  · intro h hh
    subst hh
    rfl

/-- Witness for C6 at a concrete drop of a parsed payload. -/
theorem claim6_witness :
    (handleDrop (some sampleScheduled) ⟨20030, 0, 0, 0, 0⟩ (some 10)
        [sampleScheduled])[0]? =
      some { sampleScheduled with
        scheduledTime := some (droppedTime ⟨20030, 0, 0, 0, 0⟩ (some 10)) } :=
  ((claim6_handleDrop ⟨20030, 0, 0, 0, 0⟩ (some 10) [sampleScheduled]).2
    sampleScheduled).2.2.1 0 sampleScheduled rfl rfl

/-! ### C2: conflict-freedom of the slot placement -/

/-- An incomplete, unscheduled task without a due date. -/
def cexA : Task := ⟨"a", "task a", "", 5, 10, none, false, none, none, none⟩

/-- A second such task with the same importance. -/
def cexB : Task := ⟨"b", "task b", "", 5, 10, none, false, none, none, none⟩

/-- A third such task. -/
def cexC : Task := ⟨"c", "task c", "", 5, 10, none, false, none, none, none⟩

/-- A fourth such task. -/
def cexD : Task := ⟨"d", "task d", "", 5, 10, none, false, none, none, none⟩

/-- C2 is false as stated: on two incomplete, unscheduled tasks of equal
importance and no due dates, `sortTasksByAI` assigns both the very same
slot (same day and same hour 15). -/
theorem claim2_counterexample :
    cexA.completed = false ∧ cexA.scheduledTime = none ∧
    cexB.completed = false ∧ cexB.scheduledTime = none ∧
    cexA.id ≠ cexB.id ∧
    (sortTasksByAI sampleToday [cexA, cexB]).map Task.id = ["a", "b"] ∧
    (sortTasksByAI sampleToday [cexA, cexB]).map Task.scheduledTime =
      [some ⟨20000, 15, 0, 0, 0⟩, some ⟨20000, 15, 0, 0, 0⟩] := by
  refine ⟨rfl, rfl, rfl, rfl, ?_, rfl, rfl⟩
  decide

/-- C2 amended: the slot placement of `sortTasksByAI` is not
conflict-free in general; what holds is that two newly scheduled tasks
without due dates whose positions in the sorted list fall in different
groups of three are placed on different days (hence in different
slots). -/
theorem claim2_amended (today : DateT) (tasks : List Task) (i j : Nat)
    (ti tj : Task)
    (hi : (sortByImportance tasks)[i]? = some ti)
    (hj : (sortByImportance tasks)[j]? = some tj)
    (hci : ti.completed = false) (hsi : ti.scheduledTime = none)
    (hdi : ti.dueDate = none)
    (hcj : tj.completed = false) (hsj : tj.scheduledTime = none)
    (hdj : tj.dueDate = none)
    (hij : i / 3 ≠ j / 3) :
    ∃ di dj : DateT,
      ((sortTasksByAI today tasks)[i]?).map Task.scheduledTime = some (some di) ∧
      ((sortTasksByAI today tasks)[j]?).map Task.scheduledTime = some (some dj) ∧
      di.day ≠ dj.day := by
  unfold sortTasksByAI
  rw [scheduleAll_getElem today 0 _ i, scheduleAll_getElem today 0 _ j, hi, hj]
  refine ⟨⟨today.day + (i / 3 : Nat), hourFor ti.importance, 0, 0, 0⟩,
    ⟨today.day + (j / 3 : Nat), hourFor tj.importance, 0, 0, 0⟩, ?_, ?_, ?_⟩
  · simp [schedStep, hci, hsi, hdi, DateT.addDays, DateT.setHours]
  · simp [schedStep, hcj, hsj, hdj, DateT.addDays, DateT.setHours]
  · intro hday
    apply hij
    have hday2 : today.day + ((i / 3 : Nat) : Int) =
        today.day + ((j / 3 : Nat) : Int) := hday
    omega

/-- Witness for the amended C2: tasks at sorted positions 0 and 3 land on
different days. -/
theorem claim2_amended_witness :
    ∃ di dj : DateT,
      ((sortTasksByAI sampleToday [cexA, cexB, cexC, cexD])[0]?).map
        Task.scheduledTime = some (some di) ∧
      ((sortTasksByAI sampleToday [cexA, cexB, cexC, cexD])[3]?).map
        Task.scheduledTime = some (some dj) ∧
      di.day ≠ dj.day :=
  claim2_amended sampleToday [cexA, cexB, cexC, cexD] 0 3 cexA cexD
    rfl rfl rfl rfl rfl rfl rfl rfl (by decide)

end PlanItOut
